import Mathlib

/-!
Verification of the templaar template manager (template resolution and
instantiation logic), shallowly embedded from `src/take.rs`, `src/utils.rs`
and `src/errors.rs`.

Filesystem names are modelled as `String`s (Lean strings are lists of
characters, which matches the UTF-8 names the program manipulates).
`Path::file_stem` and `Path::extension` act on the final path component
only; all names passed to the embedded codec are single components
(directory entries), so the embedding works on the component directly.
-/

set_option autoImplicit false

namespace Templaar

/-- Splits a character list at its *last* `'.'`: returns
`some (before, after)` where `before ++ '.' :: after` is the input,
`'.' ∉ after`; `none` when the list has no dot. This mirrors the
`rsplitn(2, '.')` step inside Rust's `Path::file_stem`/`extension`. -/
def splitLastDot : List Char → Option (List Char × List Char)
  | [] => none
  | c :: cs =>
    match splitLastDot cs with
    | some (b, a) => some (c :: b, a)
    | none => if c = '.' then some ([], cs) else none

/-- Rust `Path::file_stem` on a single (non-empty) file-name component:
the portion before the last dot, except that a name equal to `".."`, a
name with no dot, or a name whose only dot is the leading one is its own
stem. -/
def fileStem (name : String) : String :=
  if name = ".." then name
  else
    match splitLastDot name.data with
    | none => name
    | some ([], _) => name
    | some (b, _) => ⟨b⟩

/-- Rust `Path::extension` on a single file-name component: the portion
after the last dot, provided the part before that dot is non-empty and
the name is not `".."`. -/
def extension (name : String) : Option String :=
  if name = ".." then none
  else
    match splitLastDot name.data with
    | none => none
    | some ([], _) => none
    | some (_, a) => some ⟨a⟩

/-- `utils::templ_to_path`: encode a template name into the corresponding
file name — `.{templ}.aar` for local templates, `{templ}.aar` for global
ones. -/
def templToPath (templ : String) (global : Bool) : String :=
  (if global then "" else ".") ++ templ ++ ".aar"

/-- `utils::path_to_templ`: decode a template name from a file name —
take the file stem and strip one leading `'.'` if present. -/
def pathToTempl (path : String) : String :=
  match (fileStem path).data with
  | '.' :: rest => ⟨rest⟩
  | l => ⟨l⟩

/-- `utils::is_templ`: a path is a template iff its extension is exactly
`aar`. -/
def isTempl (path : String) : Bool := extension path == some "aar"

theorem splitLastDot_eq_none {l : List Char} (h : '.' ∉ l) :
    splitLastDot l = none := by
  induction l with
  | nil => rfl
  | cons c cs ih =>
    simp only [List.mem_cons, not_or] at h
    have hc : ¬c = '.' := fun hc => h.1 hc.symm
    simp [splitLastDot, ih h.2, hc]

theorem splitLastDot_append {xs ys : List Char} (h : '.' ∉ ys) :
    splitLastDot (xs ++ '.' :: ys) = some (xs, ys) := by
  induction xs with
  | nil => simp [splitLastDot, splitLastDot_eq_none h]
  | cons c cs ih => simp [splitLastDot, ih]

theorem fileStem_append_aar (l : List Char) (hl : l ≠ []) :
    fileStem ⟨l ++ ['.', 'a', 'a', 'r']⟩ = ⟨l⟩ := by
  have hsplit : splitLastDot (l ++ '.' :: ['a', 'a', 'r']) = some (l, ['a', 'a', 'r']) :=
    splitLastDot_append (by decide)
  have hne : (⟨l ++ ['.', 'a', 'a', 'r']⟩ : String) ≠ ".." := by
    intro h
    have hlen : (l ++ ['.', 'a', 'a', 'r']).length = 2 := by
      have := congrArg (fun s => s.data.length) h
      simp at this
    simp [List.length_append] at hlen
  unfold fileStem
  rw [if_neg hne]
  show (match splitLastDot (l ++ '.' :: ['a', 'a', 'r']) with
    | none => (⟨l ++ ['.', 'a', 'a', 'r']⟩ : String)
    | some ([], _) => ⟨l ++ ['.', 'a', 'a', 'r']⟩
    | some (b, _) => ⟨b⟩) = ⟨l⟩
  rw [hsplit]
  cases l with
  | nil => exact absurd rfl hl
  | cons c cs => rfl

/-- C4 (counterexample): the empty name satisfies the hypotheses of the claim
(no path separator, no leading dot) but does not round-trip through the
global encoding: `path_to_templ(templ_to_path("", global)) = "aar"`,
because `.aar` is a dotfile name without an extension, so its file stem
is `.aar` itself and decoding strips the leading dot. -/
theorem templ_roundtrip_cex :
    ("" : String).data.head? ≠ some '.' ∧ '/' ∉ ("" : String).data ∧
      pathToTempl (templToPath "" true) ≠ "" := by decide

/-- C4 (amended): for every *non-empty* logical name with no path
separator and no leading dot, decoding the encoded filename yields the
name again, for both the local and the global scope. -/
theorem templ_roundtrip (n : String) (g : Bool) (hne : n ≠ "")
    (hsep : '/' ∉ n.data) (hdot : n.data.head? ≠ some '.') :
    pathToTempl (templToPath n g) = n := by
  obtain ⟨l⟩ := n
  have hl : l ≠ [] := by
    intro h
    exact hne (by simp [h])
  cases g with
  | true =>
    show pathToTempl ⟨l ++ ['.', 'a', 'a', 'r']⟩ = ⟨l⟩
    unfold pathToTempl
    rw [fileStem_append_aar l hl]
    cases l with
    | nil => exact absurd rfl hl
    | cons c cs =>
      have hc : c ≠ '.' := by
        intro h
        exact hdot (by simp [h])
      show (match c :: cs with
        | '.' :: rest => (⟨rest⟩ : String)
        | l => ⟨l⟩) = ⟨c :: cs⟩
      split
      · rename_i heq
        injection heq with h1 h2
        exact absurd h1 hc
      · rfl
  | false =>
    show pathToTempl ⟨'.' :: l ++ ['.', 'a', 'a', 'r']⟩ = ⟨l⟩
    unfold pathToTempl
    rw [fileStem_append_aar ('.' :: l) (by simp)]
    rfl

theorem templ_roundtrip_witness :
    pathToTempl (templToPath "templ" false) = "templ" ∧
      pathToTempl (templToPath "note" true) = "note" :=
  ⟨templ_roundtrip "templ" false (by decide) (by decide) (by decide),
   templ_roundtrip "note" true (by decide) (by decide) (by decide)⟩

/-- A directory visible to the resolver: its absolute path and the file
names of its entries (what `fs::read_dir` yields). -/
structure Dir where
  path : String
  entries : List String
deriving DecidableEq

/-- Payload of `errors::AmbiguousTemplate`: the decoded candidate names
and the directory in which they were found. -/
structure AmbiguousTemplate where
  names : List String
  dir : String
deriving DecidableEq

/-- A resolved template location: a file found in one of the ancestor
directories (the Rust code returns `dir.join(file)`), or a file found in
the global templates directory. -/
inductive Found where
  | fromAncestor (dirPath : String) (file : String)
  | fromGlobal (file : String)
deriving DecidableEq

/-- `utils::templs_in_dir`: all entries of a directory with the `aar`
extension. (Entries whose metadata read fails are skipped by the code;
the model lists only readable entries.) -/
def templsInDir (entries : List String) : List String :=
  entries.filter isTempl

/-- The filtered candidate set of `take::find_templ_in_dir`: the `.aar`
entries, additionally filtered by decoded name when a name is given. -/
def matchesInDir (entries : List String) (name : Option String) : List String :=
  match name with
  | some n => (templsInDir entries).filter (fun t => pathToTempl t == n)
  | none => templsInDir entries

/-- `take::find_templ_in_dir`: no candidate → `none`; exactly one →
that one; more than one → `AmbiguousTemplate` with all decoded names and
the directory. -/
def findTemplInDir (d : Dir) (name : Option String) :
    Except AmbiguousTemplate (Option String) :=
  match matchesInDir d.entries name with
  | [] => .ok none
  | [f] => .ok (some f)
  | f₁ :: f₂ :: fs =>
    .error { names := (f₁ :: f₂ :: fs).map pathToTempl, dir := d.path }

/-- `take::find_templ`: walk the ancestor chain (current directory
first, filesystem root last), returning the first hit; once the walk is
exhausted, return `none` when no name was given, otherwise scan the
global templates directory with the same filter. -/
def findTempl : List Dir → Dir → Option String → Except AmbiguousTemplate (Option Found)
  | [], g, name =>
    if name.isNone then .ok none
    else (findTemplInDir g name).map (fun r => r.map .fromGlobal)
  | d :: ds, g, name =>
    match findTemplInDir d name with
    | .error e => .error e
    | .ok (some f) => .ok (some (.fromAncestor d.path f))
    | .ok none => findTempl ds g name

theorem findTemplInDir_empty {d : Dir} {name : Option String}
    (h : matchesInDir d.entries name = []) : findTemplInDir d name = .ok none := by
  simp [findTemplInDir, h]

theorem findTemplInDir_single {d : Dir} {name : Option String} {f : String}
    (h : matchesInDir d.entries name = [f]) : findTemplInDir d name = .ok (some f) := by
  simp [findTemplInDir, h]

theorem findTemplInDir_amb {d : Dir} {name : Option String}
    (h : 1 < (matchesInDir d.entries name).length) :
    findTemplInDir d name =
      .error { names := (matchesInDir d.entries name).map pathToTempl, dir := d.path } := by
  rcases hm : matchesInDir d.entries name with _ | ⟨f₁, _ | ⟨f₂, fs⟩⟩
  · rw [hm] at h; simp at h
  · rw [hm] at h; simp at h
  · simp [findTemplInDir, hm]

theorem findTempl_cons (d : Dir) (ds : List Dir) (g : Dir) (name : Option String) :
    findTempl (d :: ds) g name =
      match findTemplInDir d name with
      | .error e => .error e
      | .ok (some f) => .ok (some (.fromAncestor d.path f))
      | .ok none => findTempl ds g name := rfl

/-- C3: in any directory reached by the resolution walk, a filtered
candidate set with more than one element makes resolution fail with an
`AmbiguousTemplate` error carrying the decoded names of all candidates
and the directory path; no candidate is returned silently. -/
theorem ambiguity_detected (pre : List Dir) (d : Dir) (post : List Dir) (g : Dir)
    (name : Option String)
    (hpre : ∀ d₀ ∈ pre, matchesInDir d₀.entries name = [])
    (h : 1 < (matchesInDir d.entries name).length) :
    findTempl (pre ++ d :: post) g name =
      .error { names := (matchesInDir d.entries name).map pathToTempl, dir := d.path } := by
  induction pre with
  | nil =>
    rw [List.nil_append, findTempl_cons, findTemplInDir_amb h]
  | cons p ps ih =>
    rw [List.cons_append, findTempl_cons, findTemplInDir_empty (hpre p (by simp))]
    exact ih (fun d₀ hd₀ => hpre d₀ (by simp [hd₀]))

theorem ambiguity_detected_witness :
    findTempl [⟨"/work", [".templ.aar", ".note.aar"]⟩] ⟨"/glob", []⟩ none =
      .error { names := ["templ", "note"], dir := "/work" } := by
  have := ambiguity_detected [] ⟨"/work", [".templ.aar", ".note.aar"]⟩ [] ⟨"/glob", []⟩
    none (by simp) (by decide)
  simpa using this

/-- C2 (counterexample): the ancestor `/w` contains exactly one template
matching `a` and the global directory also matches `a`, yet resolution
does not return the local match: the nearer directory `/w/p` holds two
templates decoding to `a` (`.a.aar` and `a.aar`), so the walk stops
there with an `AmbiguousTemplate` error. -/
theorem local_precedence_cex :
    matchesInDir [".a.aar"] (some "a") = [".a.aar"] ∧
      matchesInDir ["a.aar"] (some "a") = ["a.aar"] ∧
      findTempl [⟨"/w/p", [".a.aar", "a.aar"]⟩, ⟨"/w", [".a.aar"]⟩] ⟨"/g", ["a.aar"]⟩
          (some "a") =
        .error { names := ["a", "a"], dir := "/w/p" } :=
  ⟨rfl, rfl, rfl⟩

/-- C2 (amended): if the *nearest* ancestor directory containing any
template matching `n` contains exactly one such template, resolution
returns that local match — regardless of the contents of the global
directory, so a global match never shadows it. -/
theorem local_precedence (pre : List Dir) (d : Dir) (post : List Dir) (g : Dir)
    (n : String) (f : String)
    (hpre : ∀ d₀ ∈ pre, matchesInDir d₀.entries (some n) = [])
    (hd : matchesInDir d.entries (some n) = [f]) :
    findTempl (pre ++ d :: post) g (some n) = .ok (some (.fromAncestor d.path f)) := by
  induction pre with
  | nil =>
    rw [List.nil_append, findTempl_cons, findTemplInDir_single hd]
  | cons p ps ih =>
    rw [List.cons_append, findTempl_cons, findTemplInDir_empty (hpre p (by simp))]
    exact ih (fun d₀ hd₀ => hpre d₀ (by simp [hd₀]))

theorem local_precedence_witness :
    findTempl [⟨"/w/p", ["x.txt"]⟩, ⟨"/w", [".a.aar"]⟩] ⟨"/g", ["a.aar"]⟩ (some "a") =
      .ok (some (.fromAncestor "/w" ".a.aar")) := by
  have := local_precedence [⟨"/w/p", ["x.txt"]⟩] ⟨"/w", [".a.aar"]⟩ [] ⟨"/g", ["a.aar"]⟩
    "a" ".a.aar" (by decide) (by decide)
  simpa using this

/-- C5: when every ancestor directory yields an empty candidate set, the
resolver returns not-found without consulting the global directory if no
name was given (the result is `ok none` for *every* global directory
contents), and otherwise returns exactly the result of applying the same
per-directory filter to the global directory. -/
theorem global_fallback (ancs : List Dir) (g : Dir) (name : Option String)
    (hanc : ∀ d ∈ ancs, matchesInDir d.entries name = []) :
    findTempl ancs g name =
      if name.isNone then .ok none
      else (findTemplInDir g name).map (fun r => r.map Found.fromGlobal) := by
  induction ancs with
  | nil => rfl
  | cons d ds ih =>
    have hrec := ih (fun d₀ hd₀ => hanc d₀ (by simp [hd₀]))
    rw [findTempl_cons, findTemplInDir_empty (hanc d (by simp))]
    exact hrec

theorem global_fallback_witness :
    findTempl [⟨"/w", ["x.txt"]⟩] ⟨"/g", ["a.aar"]⟩ (some "a") =
        .ok (some (.fromGlobal "a.aar")) ∧
      findTempl [⟨"/w", ["x.txt"]⟩] ⟨"/g", ["a.aar"]⟩ none = .ok none :=
  ⟨(global_fallback [⟨"/w", ["x.txt"]⟩] ⟨"/g", ["a.aar"]⟩ (some "a") (by decide)).trans rfl,
   (global_fallback [⟨"/w", ["x.txt"]⟩] ⟨"/g", ["a.aar"]⟩ none (by decide)).trans rfl⟩

/-- C8: a file returned as a match of the name-filtered per-directory
scan is one of the entries of the directory, has extension exactly `aar`, and
decodes to the requested name; in particular an entry without the `.aar`
extension is never returned even if its file stem decodes to the name. -/
theorem named_match_is_templ (d : Dir) (n : String) (f : String)
    (h : findTemplInDir d (some n) = .ok (some f)) :
    f ∈ d.entries ∧ extension f = some "aar" ∧ pathToTempl f = n := by
  rcases hm : matchesInDir d.entries (some n) with _ | ⟨f₁, _ | ⟨f₂, fs⟩⟩
  · rw [findTemplInDir_empty hm] at h
    exact absurd (Except.ok.inj h) (by simp)
  · rw [findTemplInDir_single hm] at h
    have hf : f ∈ matchesInDir d.entries (some n) := by
      rw [hm]
      simp [← Option.some.inj (Except.ok.inj h)]
    rw [matchesInDir] at hf
    have h₁ := List.mem_filter.mp hf
    have h₂ := List.mem_filter.mp h₁.1
    refine ⟨h₂.1, ?_, ?_⟩
    · have := h₂.2
      simpa [isTempl] using this
    · have := h₁.2
      simpa using this
  · rw [findTemplInDir_amb (by rw [hm]; simp)] at h
    exact absurd h (by simp)

theorem named_match_is_templ_witness :
    (".a.aar" : String) ∈ ["a", ".a.aar"] ∧ extension ".a.aar" = some "aar" ∧
      pathToTempl ".a.aar" = "a" :=
  named_match_is_templ ⟨"/w", ["a", ".a.aar"]⟩ "a" ".a.aar" rfl

/-- A filesystem node: a regular file with its contents, or a directory
with its named children. -/
inductive TNode where
  | file (contents : String)
  | dir (children : List (String × TNode))

def TNode.isDir : TNode → Bool
  | .dir _ => true
  | .file _ => false

def TNode.isFile : TNode → Bool
  | .file _ => true
  | .dir _ => false

theorem TNode.isDir_eq_false {t : TNode} (h : t.isFile = true) : t.isDir = false := by
  cases t with
  | file c => rfl
  | dir ch => exact absurd h (by simp [TNode.isFile])

/-- Characters removed by Rust `str::trim`: whitespace at both ends. -/
def trimChars (l : List Char) : List Char :=
  ((l.dropWhile Char.isWhitespace).reverse.dropWhile Char.isWhitespace).reverse

/-- `utils::user_prompt_bool` applied to the line read from standard
input: the trimmed, lowercased answer counts as *yes* unless it is `n`. -/
def userPromptBool (input : String) : Bool :=
  (⟨(trimChars input.data).map Char.toLower⟩ : String) != "n"

/-- Errors the `take` handler can return: `errors::PathExists`,
`errors::InvalidTemplate`, and the propagated `io::Error` raised when
`read_dir` is applied to a path that is not a directory. -/
inductive TakeError where
  | pathExists (path : String)
  | invalidTemplate (templPath : String) (reason : String)
  | notADirectory (path : String)
deriving DecidableEq

/-- External inputs consumed during one `take` run: the contents the
editor leaves in the target file, and the stdin lines answering the
non-empty-directory prompt and the no-change prompt. -/
structure TakeEnv where
  edited : String
  answerNonEmpty : String
  answerNoChange : String

/-- The directory-template tail of `take::take`, entered after the
flatness check, once the target directory exists and its children
`tfiles` have been listed: warn when the target is non-empty (declining
aborts with success), then fail with `PathExists` on the first target
child sharing a filename with a template child, otherwise copy every
template child into the target. -/
def takeIntoDir (children : List (String × TNode)) (targetPath : String)
    (tfiles : List (String × TNode)) (env : TakeEnv) :
    Except TakeError Unit × Option TNode :=
  if !tfiles.isEmpty && !userPromptBool env.answerNonEmpty then
    (.ok (), some (.dir tfiles))
  else
    match tfiles.find? (fun tf => children.any (fun f => tf.1 == f.1)) with
    | some tf => (.error (.pathExists (targetPath ++ "/" ++ tf.1)), some (.dir tfiles))
    | none => (.ok (), some (.dir (tfiles ++ children)))

/-- `take::take` after template resolution, acting on the target path:
the pair of the returned result and the final state of the target path
(`none` = no file there). A directory template is checked for
sub-directories, the target directory is created when missing, and its
listing feeds `takeIntoDir`; listing a target that exists as a regular
file propagates the not-a-directory I/O error. A file template fails
with `PathExists` when the target exists, otherwise the template bytes
are copied, the editor runs (leaving `env.edited`), and an unchanged
target is removed when the user declines to keep it. -/
def take (templ : TNode) (templPath : String) (targetPath : String)
    (targetInit : Option TNode) (env : TakeEnv) :
    Except TakeError Unit × Option TNode :=
  match templ with
  | .dir children =>
    if children.any (fun c => c.2.isDir) then
      (.error (.invalidTemplate templPath "directory template contains sub-directories"),
       targetInit)
    else
      match targetInit with
      | some (.file c) => (.error (.notADirectory targetPath), some (.file c))
      | some (.dir tfiles) => takeIntoDir children targetPath tfiles env
      | none => takeIntoDir children targetPath [] env
  | .file contents =>
    match targetInit with
    | some t => (.error (.pathExists targetPath), some t)
    | none =>
      if env.edited == contents && !userPromptBool env.answerNoChange then
        (.ok (), none)
      else
        (.ok (), some (.file env.edited))

theorem any_isDir_eq_false {children : List (String × TNode)}
    (hflat : ∀ ch ∈ children, ch.2.isFile = true) :
    children.any (fun c => c.2.isDir) = false := by
  rw [List.any_eq_false]
  intro ch hch
  simp [TNode.isDir_eq_false (hflat ch hch)]

theorem takeIntoDir_conflict (children : List (String × TNode))
    (templPath targetPath : String) (tfiles : List (String × TNode)) (env : TakeEnv)
    (hflat : ∀ ch ∈ children, ch.2.isFile = true)
    (hyes : userPromptBool env.answerNonEmpty = true)
    (hconf : ∃ tf ∈ tfiles, ∃ ch ∈ children, tf.1 = ch.1) :
    ∃ tf ∈ tfiles, (∃ ch ∈ children, tf.1 = ch.1) ∧
      take (.dir children) templPath targetPath (some (.dir tfiles)) env =
        (.error (.pathExists (targetPath ++ "/" ++ tf.1)), some (.dir tfiles)) := by
  have hb := any_isDir_eq_false hflat
  rcases hf : tfiles.find? (fun tf => children.any (fun f => tf.1 == f.1)) with _ | tf₀
  · obtain ⟨tf, htf, ch, hch, heq⟩ := hconf
    have hnp := List.find?_eq_none.mp hf tf htf
    exact absurd (List.any_eq_true.mpr ⟨ch, hch, by simp [heq]⟩) hnp
  · have hmem := List.mem_of_find?_eq_some hf
    have hp := List.find?_some hf
    obtain ⟨ch, hch, hbeq⟩ := List.any_eq_true.mp hp
    refine ⟨tf₀, hmem, ⟨ch, hch, by simpa using hbeq⟩, ?_⟩
    simp [take, hb, takeIntoDir, hyes, hf]

/-- C6 (amended): for a flat directory template, when a target child
shares a filename with a template child and the user does not decline
the non-empty-directory prompt, instantiation fails with `PathExists`
naming the first conflicting target path and the target keeps exactly
its original children — no template child at all is copied. -/
theorem take_dir_conflict (children : List (String × TNode))
    (templPath targetPath : String) (tfiles : List (String × TNode)) (env : TakeEnv)
    (hflat : ∀ ch ∈ children, ch.2.isFile = true)
    (hyes : userPromptBool env.answerNonEmpty = true)
    (hconf : ∃ tf ∈ tfiles, ∃ ch ∈ children, tf.1 = ch.1) :
    ∃ tf ∈ tfiles, (∃ ch ∈ children, tf.1 = ch.1) ∧
      take (.dir children) templPath targetPath (some (.dir tfiles)) env =
        (.error (.pathExists (targetPath ++ "/" ++ tf.1)), some (.dir tfiles)) :=
  takeIntoDir_conflict children templPath targetPath tfiles env hflat hyes hconf

theorem take_dir_conflict_witness :
    ∃ tf ∈ [("z", TNode.file "Z"), ("f1", TNode.file "B")],
      (∃ ch ∈ [("f1", TNode.file "A")], tf.1 = ch.1) ∧
        take (.dir [("f1", TNode.file "A")]) "/t/.templ.aar" "/w/templ"
            (some (.dir [("z", TNode.file "Z"), ("f1", TNode.file "B")])) ⟨"", "", ""⟩ =
          (.error (.pathExists ("/w/templ" ++ "/" ++ tf.1)),
           some (.dir [("z", TNode.file "Z"), ("f1", TNode.file "B")])) :=
  take_dir_conflict [("f1", TNode.file "A")] "/t/.templ.aar" "/w/templ"
    [("z", TNode.file "Z"), ("f1", TNode.file "B")] ⟨"", "", ""⟩ (by decide) (by decide)
    ⟨("f1", TNode.file "B"), List.Mem.tail _ (List.Mem.head _),
     ("f1", TNode.file "A"), List.Mem.head _, rfl⟩

/-- C6 (counterexample): a target child (`file1`) shares its filename
with a template child, yet instantiation does not fail with
`PathExists`: the user answers `n` to the "directory not empty"
prompt, so the operation aborts with a success outcome before the
conflict check. -/
theorem take_dir_conflict_cex :
    (∃ tf ∈ [("file1", TNode.file "X")],
      ∃ ch ∈ [("file1", TNode.file "A"), ("file2", TNode.file "B")], tf.1 = ch.1) ∧
      take (.dir [("file1", TNode.file "A"), ("file2", TNode.file "B")]) "/t/.templ.aar"
          "/w/templ" (some (.dir [("file1", TNode.file "X")])) ⟨"", "n", ""⟩ =
        (.ok (), some (.dir [("file1", TNode.file "X")])) :=
  ⟨⟨("file1", TNode.file "X"), List.Mem.head _,
    ("file1", TNode.file "A"), List.Mem.head _, rfl⟩, rfl⟩

/-- C1 (amended): instantiation never removes or overwrites pre-existing
target data. A file template aimed at an existing target always fails
with `PathExists` carrying the target path and leaves the target
unchanged; a flat directory template with a filename conflict fails with
`PathExists` carrying the conflicting target path and changes nothing,
provided the user does not decline the non-empty-directory prompt (if
declined, the operation is a success no-op that still changes nothing);
and in every run against an existing target directory the original
children survive unchanged, in place. -/
theorem take_nonclobber :
    (∀ (contents templPath targetPath : String) (t : TNode) (env : TakeEnv),
      take (.file contents) templPath targetPath (some t) env =
        (.error (.pathExists targetPath), some t)) ∧
    (∀ (children : List (String × TNode)) (templPath targetPath : String)
        (tfiles : List (String × TNode)) (env : TakeEnv),
      (∀ ch ∈ children, ch.2.isFile = true) →
      userPromptBool env.answerNonEmpty = true →
      (∃ tf ∈ tfiles, ∃ ch ∈ children, tf.1 = ch.1) →
      ∃ tf ∈ tfiles, (∃ ch ∈ children, tf.1 = ch.1) ∧
        take (.dir children) templPath targetPath (some (.dir tfiles)) env =
          (.error (.pathExists (targetPath ++ "/" ++ tf.1)), some (.dir tfiles))) ∧
    (∀ (children : List (String × TNode)) (templPath targetPath : String)
        (tfiles : List (String × TNode)) (env : TakeEnv),
      ∃ rest, (take (.dir children) templPath targetPath (some (.dir tfiles)) env).2 =
        some (.dir (tfiles ++ rest))) := by
  refine ⟨fun contents templPath targetPath t env => rfl,
    fun children templPath targetPath tfiles env hflat hyes hconf =>
      takeIntoDir_conflict children templPath targetPath tfiles env hflat hyes hconf,
    fun children templPath targetPath tfiles env => ?_⟩
  by_cases hb : children.any (fun c => c.2.isDir) = true
  · exact ⟨[], by simp [take, hb]⟩
  · rw [Bool.not_eq_true] at hb
    by_cases hp : (!tfiles.isEmpty && !userPromptBool env.answerNonEmpty) = true
    · exact ⟨[], by simp [take, hb, takeIntoDir, hp]⟩
    · rw [Bool.not_eq_true] at hp
      rcases hf : tfiles.find? (fun tf => children.any (fun f => tf.1 == f.1)) with _ | tf₀
      · exact ⟨children, by simp [take, hb, takeIntoDir, hp, hf]⟩
      · exact ⟨[], by simp [take, hb, takeIntoDir, hp, hf]⟩

theorem take_nonclobber_witness :
    ∃ tf ∈ [("file1", TNode.file "old")],
      (∃ ch ∈ [("file1", TNode.file "A"), ("file2", TNode.file "B")], tf.1 = ch.1) ∧
        take (.dir [("file1", TNode.file "A"), ("file2", TNode.file "B")]) "/t/.templ.aar"
            "/w/templ" (some (.dir [("file1", TNode.file "old")])) ⟨"", "", ""⟩ =
          (.error (.pathExists ("/w/templ" ++ "/" ++ tf.1)),
           some (.dir [("file1", TNode.file "old")])) :=
  take_nonclobber.2.1 [("file1", TNode.file "A"), ("file2", TNode.file "B")] "/t/.templ.aar"
    "/w/templ" [("file1", TNode.file "old")] ⟨"", "", ""⟩ (by decide) (by decide)
    ⟨("file1", TNode.file "old"), List.Mem.head _,
     ("file1", TNode.file "A"), List.Mem.head _, rfl⟩

/-- C1 (counterexample): a pre-existing target child (`a.txt`) shares
its filename with a template child, yet the operation does not fail with
`PathExists`: declining the non-empty-directory prompt aborts with a
success outcome (the pre-existing file is still left unchanged). -/
theorem take_nonclobber_cex :
    (∃ tf ∈ [("a.txt", TNode.file "old")],
      ∃ ch ∈ [("a.txt", TNode.file "T")], tf.1 = ch.1) ∧
      take (.dir [("a.txt", TNode.file "T")]) "/t/.t.aar" "/w/t"
          (some (.dir [("a.txt", TNode.file "old")])) ⟨"", "n", ""⟩ =
        (.ok (), some (.dir [("a.txt", TNode.file "old")])) :=
  ⟨⟨("a.txt", TNode.file "old"), List.Mem.head _,
    ("a.txt", TNode.file "T"), List.Mem.head _, rfl⟩, rfl⟩

/-- C7: a directory template containing a sub-directory always fails
instantiation with `InvalidTemplate` (reason: contains sub-directories)
and the target path is left exactly as it was — in particular the target
directory is never created and no file is copied. -/
theorem take_subdir_invalid (children : List (String × TNode))
    (templPath targetPath : String) (targetInit : Option TNode) (env : TakeEnv)
    (h : ∃ c ∈ children, c.2.isDir = true) :
    take (.dir children) templPath targetPath targetInit env =
      (.error (.invalidTemplate templPath "directory template contains sub-directories"),
       targetInit) := by
  have hb : children.any (fun c => c.2.isDir) = true := List.any_eq_true.mpr h
  simp [take, hb]

theorem take_subdir_invalid_witness :
    take (.dir [("sub", TNode.dir [])]) "/t/.x.aar" "/w/x" none ⟨"", "", ""⟩ =
      (.error (.invalidTemplate "/t/.x.aar" "directory template contains sub-directories"),
       none) :=
  take_subdir_invalid [("sub", TNode.dir [])] "/t/.x.aar" "/w/x" none ⟨"", "", ""⟩
    ⟨("sub", TNode.dir []), List.Mem.head _, rfl⟩

/-- C9: for a file template instantiated at a fresh target, if the
editor leaves the target byte-identical to the template and the user
declines the keep-prompt, the target no longer exists afterwards; if the
user accepts, or the contents differ, the target file remains with the
edited contents. -/
theorem take_noop_detection (contents templPath targetPath : String) (env : TakeEnv) :
    (env.edited = contents → userPromptBool env.answerNoChange = false →
      take (.file contents) templPath targetPath none env = (.ok (), none)) ∧
    (env.edited = contents → userPromptBool env.answerNoChange = true →
      take (.file contents) templPath targetPath none env =
        (.ok (), some (.file env.edited))) ∧
    (env.edited ≠ contents →
      take (.file contents) templPath targetPath none env =
        (.ok (), some (.file env.edited))) := by
  refine ⟨fun he hp => ?_, fun he hp => ?_, fun hne => ?_⟩
  · simp [take, he, hp]
  · simp [take, he, hp]
  · have hbeq : (env.edited == contents) = false := beq_eq_false_iff_ne.mpr hne
    simp [take, hbeq]

theorem take_noop_detection_witness :
    take (.file "Template") "/t/.templ.aar" "/w/templ" none ⟨"Template", "", "n"⟩ =
      (.ok (), none) :=
  (take_noop_detection "Template" "/t/.templ.aar" "/w/templ" ⟨"Template", "", "n"⟩).1
    rfl (by decide)

/-- C10: a flat directory template aimed at a target that exists as a
regular file does not fail with `PathExists`: the create-directory step
is skipped because the path exists, listing the children of the target then
propagates the not-a-directory I/O error, and the pre-existing file is
unchanged. -/
theorem take_dir_target_file (children : List (String × TNode))
    (templPath targetPath c : String) (env : TakeEnv)
    (hflat : ∀ ch ∈ children, ch.2.isFile = true) :
    take (.dir children) templPath targetPath (some (.file c)) env =
      (.error (.notADirectory targetPath), some (.file c)) := by
  simp [take, any_isDir_eq_false hflat]

theorem take_dir_target_file_witness :
    take (.dir [("f", TNode.file "x")]) "/t/.x.aar" "/w/x" (some (.file "old")) ⟨"", "", ""⟩ =
      (.error (.notADirectory "/w/x"), some (.file "old")) :=
  take_dir_target_file [("f", TNode.file "x")] "/t/.x.aar" "/w/x" "old" ⟨"", "", ""⟩
    (by decide)

end Templaar
